import Mathlib

/-!
Verification of the max-tokens demonstration scripts
(`max_tokens_example.py`, `simple_max_tokens_demo.py`) against their
specification.  The scripts drive an agent whose turn execution,
transcript store and tool registry live in an external framework; the
specification gives a precise contract for that latent harness
(Turn Executor / Transcript Store / Tool Registry), which is embedded
here, together with the operations the scripts themselves perform
(clearing the tool registry, scanning the transcript for the
truncation phrase).
-/

namespace Strands

/-- Role of a message, per the spec's data model: one of user, assistant. -/
inductive Role where
  | user : Role
  | assistant : Role
deriving DecidableEq

/-- A content part: tagged variant, a text part or a tool-invocation
request (name plus arguments), per the spec's data model. -/
inductive ContentPart where
  | text (s : String) : ContentPart
  | toolInvocation (name : String) (args : String) : ContentPart
deriving DecidableEq

/-- A message: a role and an ordered sequence of content parts. -/
structure Message where
  role : Role
  content : List ContentPart
deriving DecidableEq

/-- A tool descriptor: name, argument schema, invocation handler. -/
structure ToolDescriptor where
  name : String
  schema : String
  handler : String → String

/-- The tool registry object of the agent, as the scripts manipulate it:
a `registry` mapping from tool name to descriptor and a `tool_config`
mapping (both are Python dicts; embedded as association lists). -/
structure ToolRegistry where
  registry : List (String × ToolDescriptor)
  tool_config : List (String × String)

/-- The agent state visible to the scripts: the conversation transcript
(`messages`), the configured output-token ceiling of the model
(`max_tokens`), and the tool registry object. -/
structure AgentState where
  messages : List Message
  max_tokens : Nat
  tool_registry : ToolRegistry

/-- The literal truncation phrase the framework appends and the scripts
test against. -/
def truncationPhrase : String :=
  "tool use was incomplete due to maximum token limits being reached"

/-- The synthetic explanatory follow-up message appended after a
truncated turn: its text equals exactly the truncation phrase. -/
def syntheticMessage : Message :=
  { role := Role.assistant, content := [ContentPart.text truncationPhrase] }

/-- Embeds the registry-clearing step of both scripts
(`agent.tool_registry.registry = \x7b\x7d; agent.tool_registry.tool_config = \x7b\x7d`):
both mappings are replaced by fresh empty ones; nothing else of the
agent is touched. -/
def clearToolRegistry (st : AgentState) : AgentState :=
  { st with tool_registry := { registry := [], tool_config := [] } }

/-- The operation that empties only the `registry` mapping and leaves
`tool_config` alone; stated for contrast with `clearToolRegistry`,
which is what the scripts actually perform. -/
def clearRegistryOnly (st : AgentState) : AgentState :=
  { st with tool_registry := { st.tool_registry with registry := [] } }

/-- Modelled from the spec: the response-generating backend is a black
box (its network transport and exact tokenization are out of scope).
`respond` gives, for a transcript, registry and prompt, the content
parts of the full would-be response together with its output-token
count; `cutContent` gives whatever partial content is generated when
the output is cut off at the ceiling. -/
structure Backend where
  respond : List Message → ToolRegistry → String → List ContentPart × Nat
  cutContent : List Message → ToolRegistry → String → List ContentPart

/-- Modelled from the spec: a TurnOutcome is a tagged variant,
completed (final message) or truncated (partial message, reason). -/
inductive TurnOutcome where
  | completed (m : Message) : TurnOutcome
  | truncated (partialMsg : Message) (reason : String) : TurnOutcome
deriving DecidableEq

/-- Whether the registry permits a content part: text parts always;
a tool-invocation request only when its name is registered. -/
def registryAllows (r : ToolRegistry) : ContentPart → Bool
  | ContentPart.text _ => true
  | ContentPart.toolInvocation n _ => ((r.registry.map Prod.fst).contains n)

/-- Content parts of a backend response that the registry permits. -/
def allowedContent (r : ToolRegistry) (cs : List ContentPart) : List ContentPart :=
  cs.filter (registryAllows r)

/-- Modelled from the spec: the Turn Executor.  Given the agent state
and a new user prompt it consults the backend; if the response
completes within the token ceiling it appends a single assistant
message and returns completed; if the output would exceed the ceiling
it appends the partial message and then the synthetic explanatory
follow-up message, in that order, and returns truncated.  Tool
invocations are dispatched through the registry, so only registered
tools can appear in the produced messages. -/
def executeTurn (be : Backend) (st : AgentState) (prompt : String) :
    TurnOutcome × AgentState :=
  let r := be.respond st.messages st.tool_registry prompt
  if r.2 ≤ st.max_tokens then
    let m : Message := { role := Role.assistant,
                         content := allowedContent st.tool_registry r.1 }
    (TurnOutcome.completed m, { st with messages := st.messages ++ [m] })
  else
    let pm : Message := { role := Role.assistant,
                          content := allowedContent st.tool_registry
                            (be.cutContent st.messages st.tool_registry prompt) }
    (TurnOutcome.truncated pm truncationPhrase,
      { st with messages := st.messages ++ [pm, syntheticMessage] })

/-- A caller-side operation on the conversation, per the spec's control
flow: issue a turn, or clear the tool registry between turns. -/
inductive CallerOp where
  | turn (prompt : String) : CallerOp
  | clear : CallerOp

/-- Apply one caller operation to the agent state. -/
def applyOp (be : Backend) (st : AgentState) : CallerOp → AgentState
  | CallerOp.turn p => (executeTurn be st p).2
  | CallerOp.clear => clearToolRegistry st

/-- Apply a sequence of caller operations, left to right. -/
def applyOps (be : Backend) (st : AgentState) : List CallerOp → AgentState
  | [] => st
  | op :: ops => applyOps be (applyOp be st op) ops

/-- Whether a message contains a tool-invocation content part. -/
def hasToolPart (m : Message) : Bool :=
  m.content.any fun p =>
    match p with
    | ContentPart.toolInvocation _ _ => true
    | _ => false

/-! ### The truncation-phrase scan of `simple_max_tokens_demo.py`

The scan walks `agent.messages` as raw Python dicts: a message may lack
the `content` key (read via `.get` with default empty list) and a
content part may lack the `text` key (skipped by the comprehension
filter).  That raw shape is embedded separately from the structured
data model above. -/

/-- A raw content-part dict as the scan sees it: it may or may not
carry a `text` entry and may or may not carry a `toolUse` entry. -/
structure RawPart where
  text : Option String
  toolUse : Option String
deriving DecidableEq

/-- A raw message dict as the scan sees it: a role and an optional
`content` entry. -/
structure RawMessage where
  role : String
  content : Option (List RawPart)
deriving DecidableEq

/-- Embeds the list comprehension of `simple_max_tokens_demo.py`
(lines 53-58): all `text` fields of all content parts of all
messages, where a missing `content` key contributes the empty list
and parts without a `text` key are skipped. -/
def all_text (ms : List RawMessage) : List String :=
  ms.flatMap fun m => (m.content.getD []).filterMap fun p => p.text

/-- Embeds line 60 of `simple_max_tokens_demo.py`:
`any(expected_text in text for text in all_text)`, with Python's
substring test `in` rendered as list-of-characters containment. -/
def has_error_message (ms : List RawMessage) : Bool :=
  (all_text ms).any fun t => decide (truncationPhrase.toList <:+: t.toList)

/-! ### A concrete demonstration backend and agent

Used to instantiate the contract theorems at the scripts' scenarios:
the story prompt whose full response overflows `max_tokens = 100`, and
the arithmetic recovery prompts answered within the ceiling. -/

/-- A concrete backend realizing the scripted scenarios: arithmetic
prompts receive short text answers, any other prompt provokes a
5000-token response that opens with a `story_tool` invocation. -/
def demoBackend : Backend where
  respond := fun _ _ prompt =>
    if prompt = "What is 2 + 2?" then ([ContentPart.text "2 + 2 = 4"], 12)
    else if prompt = "What is 3+3" then ([ContentPart.text "3+3 = 6"], 12)
    else if prompt = "Hello" then ([ContentPart.text "Hi there!"], 8)
    else ([ContentPart.toolInvocation "story_tool" "story: a long tale",
           ContentPart.text "Once upon a time"], 5000)
  cutContent := fun _ _ _ =>
    [ContentPart.toolInvocation "story_tool" "story: a long ta"]

/-- The initial agent of `simple_max_tokens_demo.py`: empty transcript,
`max_tokens = 100`, and `story_tool` registered. -/
def demoState : AgentState where
  messages := []
  max_tokens := 100
  tool_registry :=
    { registry := [("story_tool",
        { name := "story_tool",
          schema := "story: string",
          handler := fun s => s })],
      tool_config := [("story_tool", "toolSpec story_tool")] }

/-- The assistant message a completed turn appends: the backend's full
content, as permitted by the registry. -/
def fullMessage (be : Backend) (st : AgentState) (prompt : String) : Message :=
  { role := Role.assistant,
    content := allowedContent st.tool_registry
      (be.respond st.messages st.tool_registry prompt).1 }

/-- The partial assistant message a truncated turn appends: whatever
content was generated before the cut-off, as permitted by the
registry. -/
def cutMessage (be : Backend) (st : AgentState) (prompt : String) : Message :=
  { role := Role.assistant,
    content := allowedContent st.tool_registry
      (be.cutContent st.messages st.tool_registry prompt) }

/-- The agent state from which the scripts' recovery turn starts:
the state after the truncated turn, with the tool registry cleared. -/
def recoveryState (be : Backend) (st : AgentState) (prompt : String) : AgentState :=
  clearToolRegistry (executeTurn be st prompt).2

theorem executeTurn_fits (be : Backend) (st : AgentState) (prompt : String)
    (h : (be.respond st.messages st.tool_registry prompt).2 ≤ st.max_tokens) :
    executeTurn be st prompt =
      (TurnOutcome.completed (fullMessage be st prompt),
       { st with messages := st.messages ++ [fullMessage be st prompt] }) := by
  simp [executeTurn, fullMessage, h]

theorem executeTurn_cut (be : Backend) (st : AgentState) (prompt : String)
    (h : st.max_tokens < (be.respond st.messages st.tool_registry prompt).2) :
    executeTurn be st prompt =
      (TurnOutcome.truncated (cutMessage be st prompt) truncationPhrase,
       { st with messages :=
           st.messages ++ [cutMessage be st prompt, syntheticMessage] }) := by
  simp [executeTurn, cutMessage, Nat.not_le.mpr h]

theorem executeTurn_max_tokens (be : Backend) (st : AgentState) (prompt : String) :
    (executeTurn be st prompt).2.max_tokens = st.max_tokens := by
  by_cases h : (be.respond st.messages st.tool_registry prompt).2 ≤ st.max_tokens
  · rw [executeTurn_fits be st prompt h]
  · rw [executeTurn_cut be st prompt (Nat.not_le.mp h)]

theorem executeTurn_tool_registry (be : Backend) (st : AgentState) (prompt : String) :
    (executeTurn be st prompt).2.tool_registry = st.tool_registry := by
  by_cases h : (be.respond st.messages st.tool_registry prompt).2 ≤ st.max_tokens
  · rw [executeTurn_fits be st prompt h]
  · rw [executeTurn_cut be st prompt (Nat.not_le.mp h)]

/-- C1: for every turn in which the backend's output would exceed the
configured output-token ceiling, the outcome is truncated and the
transcript ends with a trailing message whose text equals exactly the
literal phrase
"tool use was incomplete due to maximum token limits being reached". -/
theorem spec_C1_truncation_trailing_message (be : Backend) (st : AgentState)
    (prompt : String)
    (h : st.max_tokens < (be.respond st.messages st.tool_registry prompt).2) :
    (∃ pm r, (executeTurn be st prompt).1 = TurnOutcome.truncated pm r) ∧
    (executeTurn be st prompt).2.messages.getLast? =
      some { role := Role.assistant,
             content := [ContentPart.text truncationPhrase] } := by
  rw [executeTurn_cut be st prompt h]
  refine ⟨⟨cutMessage be st prompt, truncationPhrase, rfl⟩, ?_⟩
  simp [syntheticMessage]

theorem spec_C1_witness :
    demoState.max_tokens <
      (demoBackend.respond demoState.messages demoState.tool_registry
        "Tell me a story!").2 ∧
    ((∃ pm r, (executeTurn demoBackend demoState "Tell me a story!").1 =
        TurnOutcome.truncated pm r) ∧
     (executeTurn demoBackend demoState "Tell me a story!").2.messages.getLast? =
       some { role := Role.assistant,
              content := [ContentPart.text truncationPhrase] }) :=
  ⟨by decide,
   spec_C1_truncation_trailing_message demoBackend demoState "Tell me a story!"
     (by decide)⟩

/-- C2: every turn yields a total outcome that is either completed or
truncated with the truncation reason, and the truncated case arises
exactly when the backend's output exceeds the ceiling; no other error
kind exists in this domain. -/
theorem spec_C2_sole_error_kind (be : Backend) (st : AgentState) (prompt : String) :
    ((∃ m, (executeTurn be st prompt).1 = TurnOutcome.completed m) ∨
     (∃ pm, (executeTurn be st prompt).1 =
        TurnOutcome.truncated pm truncationPhrase)) ∧
    ((∃ pm r, (executeTurn be st prompt).1 = TurnOutcome.truncated pm r) ↔
      st.max_tokens < (be.respond st.messages st.tool_registry prompt).2) := by
  by_cases h : (be.respond st.messages st.tool_registry prompt).2 ≤ st.max_tokens
  · rw [executeTurn_fits be st prompt h]
    refine ⟨Or.inl ⟨fullMessage be st prompt, rfl⟩, ?_, ?_⟩
    · rintro ⟨pm, r, hpr⟩
      exact TurnOutcome.noConfusion hpr
    · intro hlt
      exact absurd h (Nat.not_le.mpr hlt)
  · rw [executeTurn_cut be st prompt (Nat.not_le.mp h)]
    refine ⟨Or.inr ⟨cutMessage be st prompt, rfl⟩, ?_, ?_⟩
    · intro _
      exact Nat.not_le.mp h
    · intro _
      exact ⟨cutMessage be st prompt, truncationPhrase, rfl⟩

/-- C4: every truncated turn appends the partial message with whatever
content was generated, and then the synthetic explanatory follow-up
message, in that order. -/
theorem spec_C4_partial_then_synthetic (be : Backend) (st : AgentState)
    (prompt : String)
    (h : st.max_tokens < (be.respond st.messages st.tool_registry prompt).2) :
    ∃ pm, (executeTurn be st prompt).1 = TurnOutcome.truncated pm truncationPhrase ∧
      (executeTurn be st prompt).2.messages =
        st.messages ++ [pm, syntheticMessage] := by
  rw [executeTurn_cut be st prompt h]
  exact ⟨cutMessage be st prompt, rfl, rfl⟩

theorem spec_C4_witness :
    demoState.max_tokens <
      (demoBackend.respond demoState.messages demoState.tool_registry
        "Tell me a story!").2 ∧
    (∃ pm, (executeTurn demoBackend demoState "Tell me a story!").1 =
        TurnOutcome.truncated pm truncationPhrase ∧
      (executeTurn demoBackend demoState "Tell me a story!").2.messages =
        demoState.messages ++ [pm, syntheticMessage]) :=
  ⟨by decide,
   spec_C4_partial_then_synthetic demoBackend demoState "Tell me a story!"
     (by decide)⟩

/-- C7: every turn whose backend output fits the ceiling completes:
the outcome is completed, exactly the one assistant message carrying
the backend's permitted content is appended, and no synthetic
explanatory message is appended. -/
theorem spec_C7_completed_single_message (be : Backend) (st : AgentState)
    (prompt : String)
    (h : (be.respond st.messages st.tool_registry prompt).2 ≤ st.max_tokens) :
    (executeTurn be st prompt).1 = TurnOutcome.completed (fullMessage be st prompt) ∧
    (executeTurn be st prompt).2.messages =
      st.messages ++ [fullMessage be st prompt] ∧
    (fullMessage be st prompt).role = Role.assistant := by
  rw [executeTurn_fits be st prompt h]
  exact ⟨rfl, rfl, rfl⟩

theorem spec_C7_witness :
    (demoBackend.respond demoState.messages demoState.tool_registry "Hello").2 ≤
      demoState.max_tokens ∧
    ((executeTurn demoBackend demoState "Hello").1 =
        TurnOutcome.completed (fullMessage demoBackend demoState "Hello") ∧
     (executeTurn demoBackend demoState "Hello").2.messages =
        demoState.messages ++ [fullMessage demoBackend demoState "Hello"] ∧
     (fullMessage demoBackend demoState "Hello").role = Role.assistant) :=
  ⟨by decide, spec_C7_completed_single_message demoBackend demoState "Hello"
    (by decide)⟩

theorem applyOp_messages_grows (be : Backend) (st : AgentState) (op : CallerOp) :
    st.messages <+: (applyOp be st op).messages := by
  cases op with
  | turn p =>
    show st.messages <+: (executeTurn be st p).2.messages
    by_cases h : (be.respond st.messages st.tool_registry p).2 ≤ st.max_tokens
    · rw [executeTurn_fits be st p h]
      exact List.prefix_append _ _
    · rw [executeTurn_cut be st p (Nat.not_le.mp h)]
      exact List.prefix_append _ _
  | clear =>
    exact List.prefix_rfl

theorem applyOps_messages_grows (be : Backend) (ops : List CallerOp) :
    ∀ st : AgentState, st.messages <+: (applyOps be st ops).messages := by
  induction ops with
  | nil =>
    intro st
    exact List.prefix_rfl
  | cons op ops ih =>
    intro st
    exact (applyOp_messages_grows be st op).trans (ih (applyOp be st op))

/-- C5: the transcript is append-only: across every sequence of caller
operations the existing transcript stays a prefix of the new one (so
no entry is removed or mutated) and its length is monotonically
non-decreasing. -/
theorem spec_C5_transcript_append_only (be : Backend) (st : AgentState)
    (ops : List CallerOp) :
    st.messages <+: (applyOps be st ops).messages ∧
    st.messages.length ≤ (applyOps be st ops).messages.length :=
  ⟨applyOps_messages_grows be ops st,
   (applyOps_messages_grows be ops st).length_le⟩

theorem hasToolPart_allowedContent_empty (r : ToolRegistry)
    (hr : r.registry = []) (role : Role) (cs : List ContentPart) :
    hasToolPart { role := role, content := allowedContent r cs } = false := by
  simp only [hasToolPart, allowedContent, List.any_eq_false, List.mem_filter]
  rintro p ⟨_, hallow⟩
  cases p with
  | text s => simp
  | toolInvocation n a => simp [registryAllows, hr] at hallow

theorem applyOp_registry_empty (be : Backend) (st : AgentState) (op : CallerOp)
    (hr : st.tool_registry.registry = []) :
    (applyOp be st op).tool_registry.registry = [] := by
  cases op with
  | turn p =>
    show (executeTurn be st p).2.tool_registry.registry = []
    rw [executeTurn_tool_registry]
    exact hr
  | clear =>
    rfl

theorem applyOp_tool_free_delta (be : Backend) (st : AgentState) (op : CallerOp)
    (hr : st.tool_registry.registry = []) :
    ∃ t0, (applyOp be st op).messages = st.messages ++ t0 ∧
      t0.any hasToolPart = false := by
  cases op with
  | clear =>
    exact ⟨[], by simp [applyOp, clearToolRegistry], rfl⟩
  | turn p =>
    show ∃ t0, (executeTurn be st p).2.messages = st.messages ++ t0 ∧
      t0.any hasToolPart = false
    by_cases h : (be.respond st.messages st.tool_registry p).2 ≤ st.max_tokens
    · refine ⟨[fullMessage be st p], ?_, ?_⟩
      · rw [executeTurn_fits be st p h]
      · have h1 : hasToolPart (fullMessage be st p) = false :=
          hasToolPart_allowedContent_empty st.tool_registry hr Role.assistant _
        simp [h1]
    · refine ⟨[cutMessage be st p, syntheticMessage], ?_, ?_⟩
      · rw [executeTurn_cut be st p (Nat.not_le.mp h)]
      · have h1 : hasToolPart (cutMessage be st p) = false :=
          hasToolPart_allowedContent_empty st.tool_registry hr Role.assistant _
        have h2 : hasToolPart syntheticMessage = false := rfl
        simp [h1, h2]

theorem applyOps_tool_free_tail (be : Backend) (ops : List CallerOp) :
    ∀ st : AgentState, st.tool_registry.registry = [] →
    ∃ tail, (applyOps be st ops).messages = st.messages ++ tail ∧
      tail.any hasToolPart = false := by
  induction ops with
  | nil =>
    intro st _
    exact ⟨[], by simp [applyOps], rfl⟩
  | cons op ops ih =>
    intro st hr
    obtain ⟨t0, e0, f0⟩ := applyOp_tool_free_delta be st op hr
    obtain ⟨t1, e1, f1⟩ := ih (applyOp be st op) (applyOp_registry_empty be st op hr)
    refine ⟨t0 ++ t1, ?_, ?_⟩
    · show (applyOps be (applyOp be st op) ops).messages = _
      rw [e1, e0, List.append_assoc]
    · simp [List.any_append, f0, f1]

/-- C6: after the tool registry has been cleared, every message any
subsequent sequence of turns appends to the transcript — in
particular every completed message — contains zero tool-invocation
content parts. -/
theorem spec_C6_no_tools_after_clear (be : Backend) (st : AgentState)
    (ops : List CallerOp) :
    ((applyOps be (clearToolRegistry st) ops).messages.drop
      st.messages.length).any hasToolPart = false := by
  obtain ⟨tail, e, f⟩ := applyOps_tool_free_tail be ops (clearToolRegistry st) rfl
  rw [e, show (clearToolRegistry st).messages = st.messages from rfl,
    List.drop_left]
  exact f

/-- C3: a truncated turn is not terminal: when a turn truncates, the
same agent accepts a subsequent turn on the same transcript, and in
the recovery scenario (registry cleared, prompt "What is 2 + 2?",
backend answer fitting the ceiling and containing "4") that turn
completes with a response text containing "4". -/
theorem spec_C3_truncated_not_terminal (be : Backend) (st : AgentState)
    (prompt1 : String)
    (h1 : st.max_tokens < (be.respond st.messages st.tool_registry prompt1).2)
    (h2 : (be.respond (recoveryState be st prompt1).messages
            (recoveryState be st prompt1).tool_registry "What is 2 + 2?").2 ≤
          st.max_tokens)
    (h3 : ∃ s, ContentPart.text s ∈
            (be.respond (recoveryState be st prompt1).messages
              (recoveryState be st prompt1).tool_registry "What is 2 + 2?").1 ∧
          "4".toList <:+: s.toList) :
    (∃ pm r, (executeTurn be st prompt1).1 = TurnOutcome.truncated pm r) ∧
    ∃ m, (executeTurn be (recoveryState be st prompt1) "What is 2 + 2?").1 =
           TurnOutcome.completed m ∧
         ∃ s, ContentPart.text s ∈ m.content ∧ "4".toList <:+: s.toList := by
  constructor
  · rw [executeTurn_cut be st prompt1 h1]
    exact ⟨cutMessage be st prompt1, truncationPhrase, rfl⟩
  · have hmax : (recoveryState be st prompt1).max_tokens = st.max_tokens := by
      show (clearToolRegistry (executeTurn be st prompt1).2).max_tokens = _
      rw [show (clearToolRegistry (executeTurn be st prompt1).2).max_tokens =
            (executeTurn be st prompt1).2.max_tokens from rfl,
        executeTurn_max_tokens]
    have h2' : (be.respond (recoveryState be st prompt1).messages
        (recoveryState be st prompt1).tool_registry "What is 2 + 2?").2 ≤
        (recoveryState be st prompt1).max_tokens := by
      rw [hmax]
      exact h2
    rw [executeTurn_fits be (recoveryState be st prompt1) "What is 2 + 2?" h2']
    refine ⟨fullMessage be (recoveryState be st prompt1) "What is 2 + 2?", rfl, ?_⟩
    obtain ⟨s, hs, h4⟩ := h3
    exact ⟨s, List.mem_filter.mpr ⟨hs, rfl⟩, h4⟩

theorem spec_C3_witness :
    (∃ pm r, (executeTurn demoBackend demoState "Tell me a story!").1 =
        TurnOutcome.truncated pm r) ∧
    ∃ m, (executeTurn demoBackend
            (recoveryState demoBackend demoState "Tell me a story!")
            "What is 2 + 2?").1 = TurnOutcome.completed m ∧
         ∃ s, ContentPart.text s ∈ m.content ∧ "4".toList <:+: s.toList :=
  spec_C3_truncated_not_terminal demoBackend demoState "Tell me a story!"
    (by decide) (by decide) ⟨"2 + 2 = 4", by decide, by decide⟩

/-- C8: clearing the tool registry mutates only the registry: the
transcript messages and the maximum-output-tokens configuration are
unchanged by the clear operation. -/
theorem spec_C8_clear_only_registry (st : AgentState) :
    (clearToolRegistry st).messages = st.messages ∧
    (clearToolRegistry st).max_tokens = st.max_tokens :=
  ⟨rfl, rfl⟩

/-- C9: the scripts' clearing step replaces both the `registry`
mapping and the `tool_config` mapping with fresh empty ones, leaving
both empty; emptying the `registry` mapping alone is a different
operation (witnessed on the demo agent, whose `tool_config` is
nonempty). -/
theorem spec_C9_clear_replaces_both (st : AgentState) :
    (clearToolRegistry st).tool_registry.registry = [] ∧
    (clearToolRegistry st).tool_registry.tool_config = [] ∧
    clearRegistryOnly demoState ≠ clearToolRegistry demoState := by
  refine ⟨rfl, rfl, ?_⟩
  intro h
  have h' := congrArg (fun s => s.tool_registry.tool_config) h
  simp [clearRegistryOnly, clearToolRegistry, demoState] at h'

/-- C10: the truncation-phrase scan is total over ill-shaped
transcripts: `has_error_message` is a total boolean function that is
true exactly when some text content part of some message contains the
expected phrase as a substring, a message lacking a `content` entry
contributing no text parts. -/
theorem spec_C10_scan_total (ms : List RawMessage) (r : String) :
    (has_error_message ms = true ↔
      ∃ m, m ∈ ms ∧ ∃ p, p ∈ m.content.getD [] ∧ ∃ t, p.text = some t ∧
        truncationPhrase.toList <:+: t.toList) ∧
    all_text ({ role := r, content := none } :: ms) = all_text ms := by
  constructor
  · simp only [has_error_message, all_text, List.any_eq_true, List.mem_flatMap,
      List.mem_filterMap, decide_eq_true_eq]
    constructor
    · rintro ⟨t, ⟨m, hm, p, hp, hpt⟩, hinf⟩
      exact ⟨m, hm, p, hp, t, hpt, hinf⟩
    · rintro ⟨m, hm, p, hp, t, hpt, hinf⟩
      exact ⟨t, ⟨m, hm, p, hp, hpt⟩, hinf⟩
  · simp [all_text]

end Strands
